import Mathlib

/-!
# aira-cli: a verification development for `main.go`

The program reads a file, substitutes its text into a fixed review prompt, posts the
prompt to a local Ollama server and prints the answer.  Everything the program does is
an effect, so the embedding is trace based: every function of `main.go` becomes a pure
function from a `World` (the answers of the operating system, of the HTTP server and of
the Go libraries to the calls the program makes) to the list of effects the function
performs, in program order, together with the way it ends.

Go strings are byte sequences and are embedded as `List UInt8`; a Go `error` is embedded
as the text its `Error()` method returns.
-/

namespace Aira

set_option maxRecDepth 100000

/-! ## Go strings and formatting -/

/-- A Go string: an immutable sequence of bytes, not necessarily valid UTF-8. -/
abbrev GoString := List UInt8

/-- The bytes of a Go string literal: Go source text is UTF-8. -/
def utf8 (s : String) : GoString := s.data.flatMap String.utf8EncodeChar

/-- The verbs of package `fmt` used by `main.go`: `s` (115), `v` (118) and `c` (99). -/
def isVerb (v : UInt8) : Bool := v == 115 || v == 118 || v == 99

/-- The fragment of `fmt.Sprintf` used by `main.go`: the verbs `%s`, `%v` and `%c` without
flags, and `%%`.  Operands are passed already rendered, which for the operand types of this
program is the operand itself: the bytes of a string for `%s`, the message of an error for
`%v`, the UTF-8 encoding of a rune for `%c`.  A verb with no operand left renders the marker
`%!v(MISSING)` and a percent sign that ends the format renders `%!(NOVERB)`, as in Go.  Any
other directive, and operands left over at the end of the format, are outside the fragment:
the directive is copied and the operands are dropped.  The program uses neither. -/
def sprintf : GoString → List GoString → GoString
  | [], _ => []
  | [c], _ => if c = 37 then utf8 "%!(NOVERB)" else [c]
  | c :: v :: rest, args =>
    if c = 37 then
      if v = 37 then 37 :: sprintf rest args
      else if isVerb v then
        match args with
        | a :: more => a ++ sprintf rest more
        | [] => utf8 "%!" ++ v :: utf8 "(MISSING)" ++ sprintf rest []
      else c :: v :: sprintf rest args
    else c :: sprintf (v :: rest) args

/-- The text written by `fmt.Println` for one string operand: the operand and a newline. -/
def println (s : GoString) : GoString := s ++ [10]

/-! ## The world and the effects -/

/-- The body of an HTTP response as `io.ReadAll` sees it: all its bytes, or a read error. -/
structure HttpResponse where
  body : Except GoString GoString

/-- `OllamaResponse` of `main.go`. -/
structure OllamaResponse where
  Response : GoString
  Done : Bool
deriving DecidableEq, Repr

/-- `OllamaRequest` of `main.go`. -/
structure OllamaRequest where
  Model : GoString
  Prompt : GoString
  Stream : Bool
deriving DecidableEq, Repr

/-- Everything outside `main.go` that the program calls and whose answer it inspects. -/
structure World where
  /-- Result of `filepath.Abs`: the absolute path, or the cause of the failure. -/
  abs : GoString → Except GoString GoString
  /-- Result of `os.ReadFile` on an absolute path: the bytes of the file, or the cause. -/
  osReadFile : GoString → Except GoString GoString
  /-- The JSON string literal that `encoding/json` writes for a Go string. -/
  jsonQuote : GoString → GoString
  /-- Result of `http.Post url contentType body`. -/
  httpPost : GoString → GoString → GoString → Except GoString HttpResponse
  /-- Result of `json.Unmarshal` of a body into a zero `OllamaResponse`. -/
  jsonUnmarshal : GoString → Except GoString OllamaResponse

/-- The effects of the program, as performed by the main goroutine. -/
inductive Event where
  /-- Call of `filepath.Abs` on a path. -/
  | absPath (path : GoString)
  /-- Call of `os.ReadFile` on a path. -/
  | osReadFile (path : GoString)
  /-- Bytes written to standard output. -/
  | stdout (text : GoString)
  /-- Message handed to the standard logger by `log.Fatalf`. -/
  | log (msg : GoString)
  /-- The statement `go renderSpinner(done)`: the progress indicator is started. -/
  | goSpinner
  /-- Call of `http.Post`. -/
  | httpPost (url contentType body : GoString)
  /-- The statement `done <- true`: the stop signal is handed to the indicator. -/
  | chanSend
  /-- Call of `io.ReadAll` on the response body. -/
  | readAll
deriving DecidableEq, Repr

/-- How a function of the program ends: it returns, or the process exits with a status. -/
inductive Outcome where
  | returned
  | exit (status : Nat)
deriving DecidableEq, Repr

/-- A run of a function that returns nothing: its effects and its end. -/
structure Run where
  events : List Event
  outcome : Outcome
deriving DecidableEq, Repr

/-- A run of `readFile`: its effects and the pair `(string, error)` it returns. -/
structure ReadResult where
  events : List Event
  content : GoString
  err : Option GoString
deriving DecidableEq, Repr

/-! ## `readFile` -/

/-- `readFile` of `main.go`. -/
def readFile (w : World) (filePath : GoString) : ReadResult :=
  if filePath = [] then
    { events := [], content := [], err := some (sprintf (utf8 "no file provided") []) }
  else
    match w.abs filePath with
    | .error err =>
      { events := [.absPath filePath], content := [],
        err := some (sprintf (utf8 "error resolving path: %v") [err]) }
    | .ok absolutePath =>
      match w.osReadFile absolutePath with
      | .error err =>
        { events := [.absPath filePath, .osReadFile absolutePath], content := [],
          err := some (sprintf (utf8 "error reading file %s: %v") [filePath, err]) }
      | .ok content =>
        { events := [.absPath filePath, .osReadFile absolutePath], content := content,
          err := none }

/-! ## The prompt -/

/-- The lines of the raw string literal passed to `fmt.Sprintf` in `sendToAIReview`. -/
def templateLines : List String := [
  "\n",
  "  Act as a seasoned Principal Software Engineer reviewing a pull request (PR) from a colleague. Your goal is to provide a comprehensive, constructive, and actionable code review.\n",
  "\n",
  "  Analyze the following code snippet with these key areas in mind:\n",
  "\n",
  "  1.  **Bugs and Edge Cases:** Identify potential bugs, logical errors, race conditions, or unhandled edge cases. Think about what could go wrong in a production environment.\n",
  "  2.  **Best Practices & Idiomatic Code:** Does the code adhere to the language's best practices and idiomatic conventions? Is it clean and easy to understand?\n",
  "  3.  **Performance and Efficiency:** Look for performance bottlenecks, inefficient algorithms, or unnecessary resource consumption (memory, CPU).\n",
  "  4.  **Readability & Maintainability:** Assess the code's clarity and long-term maintainability. Suggest improvements to variable names, comments, and overall structure.\n",
  "  5.  **Refactoring Opportunities:** Propose specific refactorings that could improve the code's architecture, reduce complexity, or eliminate redundant code (DRY - Don't Repeat Yourself).\n",
  "  6.  **Security:** Point out any potential security vulnerabilities.\n",
  "\n",
  "  Please structure your review in Markdown. Start with a brief summary, then use clear headings for each point of your feedback.\n",
  "\n",
  "  Here is the code to be reviewed:\n",
  "  -------------------------------\n",
  "  %s\n",
  "  "]

/-- The format string of the prompt. -/
def reviewTemplate : GoString := utf8 (String.join templateLines)

/-- The prompt that `sendToAIReview` builds for a file content. -/
def buildPrompt (content : GoString) : GoString := sprintf reviewTemplate [content]

/-! ## The request -/

/-- A field value of the JSON objects of this program. -/
inductive JsonScalar where
  | str (s : GoString)
  | bool (b : Bool)
deriving DecidableEq, Repr

/-- The JSON object of an `OllamaRequest`: one member per struct field, in declaration
order, named by the field's `json` tag. -/
def OllamaRequest.fields (r : OllamaRequest) : List (GoString × JsonScalar) :=
  [(utf8 "model", .str r.Model), (utf8 "prompt", .str r.Prompt), (utf8 "stream", .bool r.Stream)]

/-- The JSON text of a field value; strings are quoted by the library. -/
def renderScalar (quote : GoString → GoString) : JsonScalar → GoString
  | .str s => quote s
  | .bool true => utf8 "true"
  | .bool false => utf8 "false"

/-- The JSON text of one object member: the quoted tag, a colon, the value. -/
def renderMember (quote : GoString → GoString) (m : GoString × JsonScalar) : GoString :=
  utf8 "\"" ++ m.1 ++ utf8 "\":" ++ renderScalar quote m.2

/-- The compact JSON text of an object, as `json.Marshal` writes a struct. -/
def renderObject (quote : GoString → GoString) (ms : List (GoString × JsonScalar)) : GoString :=
  utf8 "\x7b" ++ (utf8 ",").intercalate (ms.map (renderMember quote)) ++ utf8 "\x7d"

/-- `json.Marshal` of an `OllamaRequest`.  The error result exists in the signature only:
a struct of two strings and a boolean always encodes. -/
def jsonMarshal (w : World) (r : OllamaRequest) : Except GoString GoString :=
  .ok (renderObject w.jsonQuote r.fields)

/-- The constant `url` of `sendToAIReview`. -/
def url : GoString := utf8 "http://localhost:11434/api/generate"

/-- The constant `model` of `sendToAIReview`. -/
def model : GoString := utf8 "llama3"

/-- The value `requestData` of `sendToAIReview`. -/
def requestData (content : GoString) : OllamaRequest :=
  { Model := model, Prompt := buildPrompt content, Stream := false }

/-- The line printed before the request is sent. -/
def sendingLine : GoString := println (utf8 "🤖 Sending code to Ollama... Please wait.")

/-- The line printed when a review has been received: the success banner. -/
def bannerLine : GoString := println (utf8 "\n--- ✅ Code Review Received ---")

/-- The effects of `log.Fatalf format err`: the message is logged and the process exits
with status 1. -/
def fatalf (before : List Event) (format : String) (err : GoString) : Run :=
  { events := before ++ [.log (sprintf (utf8 format) [err])], outcome := .exit 1 }

/-! ## `sendToAIReview`, the root command and `main` -/

/-- `sendToAIReview` of `main.go`, as run by the main goroutine. -/
def sendToAIReview (w : World) (content : GoString) : Run :=
  match jsonMarshal w (requestData content) with
  | .error err => fatalf [] "error converting data to JSON: %v" err
  | .ok jsonData =>
    let sent : List Event :=
      [.stdout sendingLine, .goSpinner, .httpPost url (utf8 "application/json") jsonData,
       .chanSend]
    match w.httpPost url (utf8 "application/json") jsonData with
    | .error err => fatalf sent "error making request to Ollama: %v" err
    | .ok resp =>
      match resp.body with
      | .error err => fatalf (sent ++ [.readAll]) "error reading response from Ollama: %v" err
      | .ok body =>
        match w.jsonUnmarshal body with
        | .error err =>
          fatalf (sent ++ [.readAll]) "error unmarshalling response from Ollama: %v" err
        | .ok ollamaResp =>
          { events := sent ++ [.readAll, .stdout bannerLine, .stdout (println ollamaResp.Response)],
            outcome := .returned }

/-- The `Run` function of `rootCmd`, applied to the value of the flag `--file`. -/
def rootCmdRun (w : World) (filePath : GoString) : Run :=
  let r := readFile w filePath
  match r.err with
  | some err => { events := r.events ++ [.stdout (println err)], outcome := .returned }
  | none =>
    let s := sendToAIReview w r.content
    { events := r.events ++ s.events, outcome := s.outcome }

/-- What cobra makes of the command line: it rejects it, or it calls `Run` with the value
of the flag `--file` (the empty string when the flag is absent), or it does neither (help). -/
inductive Invocation where
  | rejected
  | run (filePath : GoString)
  | noRun
deriving DecidableEq, Repr

/-- `main` of `main.go`: `rootCmd.Execute()` fails exactly when cobra rejects the command
line, and then the process exits with status 1. -/
def main (w : World) : Invocation → Run
  | .rejected => { events := [], outcome := .exit 1 }
  | .run filePath => rootCmdRun w filePath
  | .noRun => { events := [], outcome := .returned }

/-- The exit status of the process: 0 when `main` returns. -/
def exitStatus : Outcome → Nat
  | .returned => 0
  | .exit status => status

/-! ## `renderSpinner` -/

/-- The slice `spinner` of `renderSpinner`. -/
def spinner : List Char := ['|', '/', '-', '\\']

/-- A Go `int` after an arithmetic operation: 64 bits, two's complement. -/
def wrapInt (x : Int) : Int := (x + 2 ^ 63) % 2 ^ 64 - 2 ^ 63

/-- The slice index expression `xs[i]`: `none` is the run-time panic index out of range. -/
def index (xs : List Char) (i : Int) : Option Char :=
  if 0 ≤ i then xs[i.toNat]? else none

/-- Where the goroutine of `renderSpinner` stands. -/
inductive SpinnerStatus where
  | running
  | returned
  | panicked
deriving DecidableEq, Repr

/-- The state of `renderSpinner`: the variable `i`, what it has printed so far, one entry
per call of `fmt.Printf`, and its status. -/
structure SpinnerState where
  i : Int
  printed : List GoString
  status : SpinnerStatus
deriving DecidableEq, Repr

/-- The state of `renderSpinner` when its loop is entered. -/
def spinnerInit : SpinnerState := { i := 0, printed := [], status := .running }

/-- One iteration of the loop of `renderSpinner`.  The argument tells whether the `select`
receives the stop signal from `done`; otherwise the `default` branch runs. -/
def spinnerStep (received : Bool) (s : SpinnerState) : SpinnerState :=
  match s.status with
  | .running =>
    if received then { s with status := .returned }
    else
      match index spinner s.i with
      | none => { s with status := .panicked }
      | some glyph =>
        { i := Int.tmod (wrapInt (s.i + 1)) (spinner.length : Int),
          printed := s.printed ++
            [sprintf (utf8 "\rAnalisando com o Ollama... %c ") [String.utf8EncodeChar glyph]],
          status := .running }
  | _ => s

/-- `renderSpinner` of `main.go` run against a schedule: entry `k` of the schedule tells
whether iteration `k` of the loop receives the stop signal. -/
def renderSpinner (schedule : List Bool) : SpinnerState :=
  schedule.foldl (fun s received => spinnerStep received s) spinnerInit

/-! ## Derived notions used by the statements -/

/-- The part of the prompt before the file content: the first sixteen lines of the template,
the last of which is the dashed delimiter line, and the indentation of the directive. -/
def promptHead : GoString := utf8 (String.join (templateLines.take 16)) ++ utf8 "  "

/-- The part of the prompt after the file content: what follows the directive. -/
def promptTail : GoString := utf8 "\n  "

/-- The body that `sendToAIReview` posts: the JSON text of `requestData`. -/
def requestBody (w : World) (content : GoString) : GoString :=
  renderObject w.jsonQuote (requestData content).fields

/-- The answer of the world to the call of `http.Post` that `sendToAIReview` makes. -/
def postResult (w : World) (content : GoString) : Except GoString HttpResponse :=
  w.httpPost url (utf8 "application/json") (requestBody w content)

/-- The effects up to the stop signal in a run of `sendToAIReview`. -/
def sentEvents (w : World) (content : GoString) : List Event :=
  [.stdout sendingLine, .goSpinner,
   .httpPost url (utf8 "application/json") (requestBody w content), .chanSend]

/-- Whether an effect is a call of `http.Post`. -/
def Event.isHttpPost : Event → Bool
  | .httpPost _ _ _ => true
  | _ => false

/-- Whether an effect is a message of `log.Fatalf`. -/
def Event.isLog : Event → Bool
  | .log _ => true
  | _ => false

/-- All the bytes written to standard output by a list of effects, in order. -/
def stdoutText : List Event → GoString
  | [] => []
  | .stdout text :: rest => text ++ stdoutText rest
  | _ :: rest => stdoutText rest

/-- The text the specification expects for print number `k`: the carriage return and
the label, glyph number `k mod 4` of the sequence, and a blank. -/
def spinnerLine (k : Nat) : GoString :=
  utf8 "\rAnalisando com o Ollama... " ++
    String.utf8EncodeChar (['|', '/', '-', '\\'].getD (k % 4) '|') ++ utf8 " "

/-- The number of iterations of a schedule before the first one that receives the signal. -/
def ticksBeforeStop (schedule : List Bool) : Nat := (schedule.takeWhile (fun r => !r)).length

/-! ## Sample worlds -/

/-- The response body of the example of the specification. -/
def looksGoodBody : GoString := utf8 "\x7b\"response\":\"looks good\",\"done\":true\x7d"

/-- A world with the file `/home/dev/main.go`, working directory `/home/dev`, and a server
that answers with `looksGoodBody`. -/
def worldOk : World where
  abs := fun p => if p.head? = some 47 then .ok p else .ok (utf8 "/home/dev/" ++ p)
  osReadFile := fun p =>
    if p = utf8 "/home/dev/main.go" then .ok (utf8 "package main\n")
    else .error (utf8 "open " ++ p ++ utf8 ": no such file or directory")
  jsonQuote := fun s => utf8 "\"" ++ s ++ utf8 "\""
  httpPost := fun _ _ _ => .ok { body := .ok looksGoodBody }
  jsonUnmarshal := fun b =>
    if b = looksGoodBody then .ok { Response := utf8 "looks good", Done := true }
    else .error (utf8 "unexpected end of JSON input")

/-- The world `worldOk` after the working directory has been removed: relative paths no
longer resolve. -/
def worldNoCwd : World :=
  { worldOk with
    abs := fun p =>
      if p.head? = some 47 then .ok p else .error (utf8 "getwd: no such file or directory") }

/-- The world `worldOk` with no server listening. -/
def worldDown : World :=
  { worldOk with
    httpPost := fun _ _ _ => .error (utf8 "dial tcp 127.0.0.1:11434: connect: connection refused") }

/-- The world `worldOk` with a server whose response body breaks off while it is read. -/
def worldCut : World :=
  { worldOk with httpPost := fun _ _ _ => .ok { body := .error (utf8 "unexpected EOF") } }

/-- The world `worldOk` with a server that answers with text that is not JSON. -/
def worldGarbled : World :=
  { worldOk with
    httpPost := fun _ _ _ => .ok { body := .ok (utf8 "<html>") }
    jsonUnmarshal := fun _ =>
      .error (utf8 "invalid character '<' looking for beginning of value") }

/-! ## Lemmas on strings and formatting -/

theorem utf8_append (a b : String) : utf8 (a ++ b) = utf8 a ++ utf8 b := by
  simp [utf8, String.data_append, List.flatMap_append]

theorem utf8_foldl_append (ls : List String) (acc : String) :
    utf8 (ls.foldl (fun r s => r ++ s) acc) = utf8 acc ++ (ls.map utf8).flatten := by
  induction ls generalizing acc with
  | nil => simp
  | cons l ls ih => simp [ih, utf8_append, List.append_assoc]

theorem utf8_join (ls : List String) : utf8 (String.join ls) = (ls.map utf8).flatten := by
  have h := utf8_foldl_append ls ""
  simpa [String.join, utf8] using h

/-- Bytes without a percent sign are copied by `sprintf`. -/
theorem sprintf_plain (pre rest : GoString) (args : List GoString)
    (h : pre.all (fun c => c != 37) = true) :
    sprintf (pre ++ rest) args = pre ++ sprintf rest args := by
  induction pre with
  | nil => rfl
  | cons c pre ih =>
    simp only [List.all_cons, Bool.and_eq_true, bne_iff_ne, ne_eq] at h
    have ih2 := ih h.2
    cases hr : pre ++ rest with
    | nil =>
      rw [hr] at ih2
      simp only [List.cons_append, hr]
      rw [← ih2]
      simp [sprintf, h.1]
    | cons v tl =>
      rw [hr] at ih2
      simp only [List.cons_append, hr]
      rw [← ih2]
      simp [sprintf, h.1]

/-- Lines without a percent sign are copied by `sprintf`. -/
theorem sprintf_plain_lines (ls : List String) (rest : GoString) (args : List GoString)
    (h : ls.all (fun l => (utf8 l).all (fun c => c != 37)) = true) :
    sprintf ((ls.map utf8).flatten ++ rest) args = (ls.map utf8).flatten ++ sprintf rest args := by
  induction ls with
  | nil => rfl
  | cons l ls ih =>
    simp only [List.all_cons, Bool.and_eq_true] at h
    simp only [List.map_cons, List.flatten_cons, List.append_assoc]
    rw [sprintf_plain _ _ _ h.1, ih h.2]

theorem templateLines_plain :
    (templateLines.take 16).all (fun l => (utf8 l).all (fun c => c != 37)) = true := by
  decide

theorem buildPrompt_eq (content : GoString) :
    buildPrompt content = promptHead ++ content ++ promptTail := by
  have hsplit : templateLines = templateLines.take 16 ++ ["  %s\n", "  "] := by rfl
  have h1 : utf8 "  %s\n" = utf8 "  " ++ utf8 "%s\n" := by decide
  unfold buildPrompt reviewTemplate promptHead promptTail
  rw [utf8_join]
  conv_lhs => rw [hsplit]
  rw [utf8_join, List.map_append, List.flatten_append, sprintf_plain_lines _ _ _ templateLines_plain]
  simp only [List.map_cons, List.map_nil, List.flatten_cons, List.flatten_nil, List.append_nil, h1,
    List.append_assoc]
  rw [sprintf_plain (utf8 "  ") _ _ (by decide)]
  rfl

theorem promptHead_delimiter :
    utf8 "  -------------------------------\n  " <:+ promptHead := by
  have hsplit : templateLines.take 16 =
      templateLines.take 15 ++ ["  -------------------------------\n"] := by rfl
  refine ⟨utf8 (String.join (templateLines.take 15)), ?_⟩
  unfold promptHead
  rw [hsplit, utf8_join, utf8_join, List.map_append, List.flatten_append]
  have h1 : utf8 "  -------------------------------\n  " =
      utf8 "  -------------------------------\n" ++ utf8 "  " := by decide
  simp [h1]

theorem readFile_ok (w : World) (path absolutePath b : GoString) (hne : path ≠ [])
    (habs : w.abs path = .ok absolutePath) (hread : w.osReadFile absolutePath = .ok b) :
    readFile w path =
      { events := [.absPath path, .osReadFile absolutePath], content := b, err := none } := by
  simp [readFile, hne, habs, hread]

theorem sendToAIReview_events_sent (w : World) (content : GoString) :
    ∃ rest, (sendToAIReview w content).events = sentEvents w content ++ rest := by
  unfold sendToAIReview
  simp only [jsonMarshal, sentEvents, requestBody, fatalf]
  split
  · exact ⟨_, rfl⟩
  · split
    · exact ⟨_, rfl⟩
    · split
      · exact ⟨_, rfl⟩
      · exact ⟨_, rfl⟩

/-- A verb takes the next operand. -/
theorem sprintf_verb (v : UInt8) (rest a : GoString) (more : List GoString)
    (hv : isVerb v = true) (h37 : v ≠ 37) :
    sprintf (37 :: v :: rest) (a :: more) = a ++ sprintf rest more := by
  simp [sprintf, hv, h37]

theorem sprintf_nil (args : List GoString) : sprintf [] args = [] := by
  simp [sprintf]

theorem sprintf_resolve (cause : GoString) :
    sprintf (utf8 "error resolving path: %v") [cause] = utf8 "error resolving path: " ++ cause := by
  have h : utf8 "error resolving path: %v" = utf8 "error resolving path: " ++ [37, 118] := by
    decide
  rw [h, sprintf_plain _ _ _ (by decide), sprintf_verb _ _ _ _ (by decide) (by decide),
    sprintf_nil, List.append_nil]

theorem sprintf_reading (path cause : GoString) :
    sprintf (utf8 "error reading file %s: %v") [path, cause] =
      utf8 "error reading file " ++ path ++ utf8 ": " ++ cause := by
  have h : utf8 "error reading file %s: %v" =
      utf8 "error reading file " ++ (37 :: 115 :: (utf8 ": " ++ [37, 118])) := by decide
  rw [h, sprintf_plain _ _ _ (by decide), sprintf_verb _ _ _ _ (by decide) (by decide),
    sprintf_plain _ _ _ (by decide), sprintf_verb _ _ _ _ (by decide) (by decide),
    sprintf_nil, List.append_nil, List.append_assoc, List.append_assoc]

/-- The three ways in which `readFile` fails, with the message of each. -/
theorem readFile_err_cases (w : World) (path e : GoString) (h : (readFile w path).err = some e) :
    (path = [] ∧ e = utf8 "no file provided" ∧ (readFile w path).events = []) ∨
    (path ≠ [] ∧ ∃ cause, w.abs path = .error cause ∧
      e = utf8 "error resolving path: " ++ cause ∧ (readFile w path).events = [.absPath path]) ∨
    (path ≠ [] ∧ ∃ a cause, w.abs path = .ok a ∧ w.osReadFile a = .error cause ∧
      e = utf8 "error reading file " ++ path ++ utf8 ": " ++ cause ∧
      (readFile w path).events = [.absPath path, .osReadFile a]) := by
  have h0 : sprintf (utf8 "no file provided") [] = utf8 "no file provided" := by decide
  by_cases hp : path = []
  · left
    have hr : readFile w path =
        { events := [], content := [], err := some (utf8 "no file provided") } := by
      unfold readFile
      rw [if_pos hp, h0]
    rw [hr] at h ⊢
    simp only [Option.some.injEq] at h
    exact ⟨hp, h.symm, rfl⟩
  · right
    cases ha : w.abs path with
    | error cause =>
      left
      have hr : readFile w path =
          { events := [.absPath path], content := [],
            err := some (utf8 "error resolving path: " ++ cause) } := by
        unfold readFile
        rw [if_neg hp]
        simp only [ha, sprintf_resolve]
      rw [hr] at h ⊢
      simp only [Option.some.injEq] at h
      exact ⟨hp, cause, rfl, h.symm, rfl⟩
    | ok a =>
      right
      cases hrd : w.osReadFile a with
      | error cause =>
        have hr : readFile w path =
            { events := [.absPath path, .osReadFile a], content := [],
              err := some (utf8 "error reading file " ++ path ++ utf8 ": " ++ cause) } := by
          unfold readFile
          rw [if_neg hp]
          simp only [ha, hrd, sprintf_reading]
        rw [hr] at h ⊢
        simp only [Option.some.injEq] at h
        exact ⟨hp, a, cause, rfl, hrd, h.symm, rfl⟩
      | ok b =>
        rw [readFile_ok w path a b hp ha hrd] at h
        simp at h

theorem readFile_empty (w : World) :
    readFile w (utf8 "") =
      { events := [], content := utf8 "", err := some (utf8 "no file provided") } := by
  have h : sprintf (utf8 "no file provided") [] = utf8 "no file provided" := by decide
  have h0 : utf8 "" = [] := rfl
  unfold readFile
  rw [if_pos h0, h, h0]

/-- A format that ends with the verb `%v` after plain text. -/
theorem sprintf_plain_v (pre e : GoString) (h : pre.all (fun c => c != 37) = true) :
    sprintf (pre ++ [37, 118]) [e] = pre ++ e := by
  rw [sprintf_plain _ _ _ h, sprintf_verb _ _ _ _ (by decide) (by decide), sprintf_nil,
    List.append_nil]

theorem jsonMarshal_eq (w : World) (content : GoString) :
    jsonMarshal w (requestData content) = .ok (requestBody w content) := rfl

theorem send_post_error (w : World) (content e : GoString)
    (hpost : postResult w content = .error e) :
    sendToAIReview w content =
      { events := sentEvents w content ++ [.log (utf8 "error making request to Ollama: " ++ e)],
        outcome := .exit 1 } := by
  have hf : utf8 "error making request to Ollama: %v" =
      utf8 "error making request to Ollama: " ++ [37, 118] := by decide
  have hs := sprintf_plain_v (utf8 "error making request to Ollama: ") e (by decide)
  unfold postResult at hpost
  unfold sendToAIReview
  simp only [jsonMarshal_eq, hpost, fatalf, hf, hs]
  rfl

theorem send_read_error (w : World) (content e : GoString) (resp : HttpResponse)
    (hpost : postResult w content = .ok resp) (hbody : resp.body = .error e) :
    sendToAIReview w content =
      { events := sentEvents w content ++
          [.readAll, .log (utf8 "error reading response from Ollama: " ++ e)],
        outcome := .exit 1 } := by
  have hf : utf8 "error reading response from Ollama: %v" =
      utf8 "error reading response from Ollama: " ++ [37, 118] := by decide
  have hs := sprintf_plain_v (utf8 "error reading response from Ollama: ") e (by decide)
  unfold postResult at hpost
  unfold sendToAIReview
  simp only [jsonMarshal_eq, hpost, hbody, fatalf, hf, hs]
  simp [sentEvents]

theorem send_parse_error (w : World) (content body e : GoString) (resp : HttpResponse)
    (hpost : postResult w content = .ok resp) (hbody : resp.body = .ok body)
    (hparse : w.jsonUnmarshal body = .error e) :
    sendToAIReview w content =
      { events := sentEvents w content ++
          [.readAll, .log (utf8 "error unmarshalling response from Ollama: " ++ e)],
        outcome := .exit 1 } := by
  have hf : utf8 "error unmarshalling response from Ollama: %v" =
      utf8 "error unmarshalling response from Ollama: " ++ [37, 118] := by decide
  have hs := sprintf_plain_v (utf8 "error unmarshalling response from Ollama: ") e (by decide)
  unfold postResult at hpost
  unfold sendToAIReview
  simp only [jsonMarshal_eq, hpost, hbody, hparse, fatalf, hf, hs]
  simp [sentEvents]

theorem send_ok (w : World) (content body : GoString) (resp : HttpResponse)
    (r : OllamaResponse) (hpost : postResult w content = .ok resp)
    (hbody : resp.body = .ok body) (hparse : w.jsonUnmarshal body = .ok r) :
    sendToAIReview w content =
      { events := sentEvents w content ++
          [.readAll, .stdout bannerLine, .stdout (r.Response ++ [10])],
        outcome := .returned } := by
  unfold postResult at hpost
  unfold sendToAIReview
  simp only [jsonMarshal_eq, hpost, hbody, hparse]
  rfl

/-- Every run of `sendToAIReview` is one of four: the request fails, the body cannot be
read, the body cannot be parsed, or a response is parsed. -/
theorem send_cases (w : World) (content : GoString) :
    (∃ e, postResult w content = .error e) ∨
    (∃ resp e, postResult w content = .ok resp ∧ resp.body = .error e) ∨
    (∃ resp body e, postResult w content = .ok resp ∧ resp.body = .ok body ∧
      w.jsonUnmarshal body = .error e) ∨
    (∃ resp body r, postResult w content = .ok resp ∧ resp.body = .ok body ∧
      w.jsonUnmarshal body = .ok r) := by
  cases hp : postResult w content with
  | error e => exact Or.inl ⟨e, rfl⟩
  | ok resp =>
    cases hb : resp.body with
    | error e => exact Or.inr (Or.inl ⟨resp, e, rfl, hb⟩)
    | ok body =>
      cases hu : w.jsonUnmarshal body with
      | error e => exact Or.inr (Or.inr (Or.inl ⟨resp, body, e, rfl, hb, hu⟩))
      | ok r => exact Or.inr (Or.inr (Or.inr ⟨resp, body, r, rfl, hb, hu⟩))

theorem requestBody_eq (w : World) (content : GoString) :
    requestBody w content =
      utf8 "\x7b\"model\":" ++ w.jsonQuote (utf8 "llama3") ++ utf8 ",\"prompt\":" ++
        w.jsonQuote (buildPrompt content) ++ utf8 ",\"stream\":false\x7d" := by
  have h1 : utf8 "\x7b\"model\":" = utf8 "\x7b" ++ (utf8 "\"" ++ (utf8 "model" ++ utf8 "\":")) := by
    decide
  have h2 : utf8 ",\"prompt\":" = utf8 "," ++ (utf8 "\"" ++ (utf8 "prompt" ++ utf8 "\":")) := by
    decide
  have h3 : utf8 ",\"stream\":false\x7d" =
      utf8 "," ++ (utf8 "\"" ++ (utf8 "stream" ++ (utf8 "\":" ++ (utf8 "false" ++ utf8 "\x7d")))) := by
    decide
  rw [h1, h2, h3]
  simp only [requestBody, renderObject, renderMember, renderScalar, OllamaRequest.fields,
    requestData, model, List.map_cons, List.map_nil, List.intercalate, List.intersperse,
    List.flatten_cons, List.flatten_nil, List.append_assoc, List.append_nil]

/-! ## Lemmas on the spinner -/

theorem spinnerLine_mod (k : Nat) : spinnerLine (k % 4) = spinnerLine k := by
  simp [spinnerLine, Nat.mod_mod]

/-- An iteration that takes the `default` branch, at an index within the slice. -/
theorem spinnerStep_default (m : Nat) (hm : m < 4) (printed : List GoString) :
    spinnerStep false { i := (m : Int), printed := printed, status := .running } =
      { i := (((m + 1) % 4 : Nat) : Int), printed := printed ++ [spinnerLine m],
        status := .running } := by
  interval_cases m <;> rfl

theorem spinnerStep_stopped (received : Bool) (s : SpinnerState) (h : s.status ≠ .running) :
    spinnerStep received s = s := by
  unfold spinnerStep
  split
  · rename_i hs
    exact absurd hs h
  · rfl

theorem foldl_stopped (schedule : List Bool) (s : SpinnerState) (h : s.status ≠ .running) :
    schedule.foldl (fun s received => spinnerStep received s) s = s := by
  induction schedule with
  | nil => rfl
  | cons r rest ih => rw [List.foldl_cons, spinnerStep_stopped r s h, ih]

/-- The loop of `renderSpinner` after `n` prints, run against a schedule. -/
theorem spinner_run_from (schedule : List Bool) (n : Nat) :
    schedule.foldl (fun s received => spinnerStep received s)
        { i := ((n % 4 : Nat) : Int), printed := (List.range n).map spinnerLine,
          status := .running } =
      { i := (((n + ticksBeforeStop schedule) % 4 : Nat) : Int),
        printed := (List.range (n + ticksBeforeStop schedule)).map spinnerLine,
        status := if true ∈ schedule then .returned else .running } := by
  induction schedule generalizing n with
  | nil => simp [ticksBeforeStop]
  | cons r rest ih =>
    cases r with
    | true =>
      rw [List.foldl_cons]
      have h1 : spinnerStep true
          { i := ((n % 4 : Nat) : Int), printed := (List.range n).map spinnerLine,
            status := .running } =
          { i := ((n % 4 : Nat) : Int), printed := (List.range n).map spinnerLine,
            status := .returned } := rfl
      rw [h1, foldl_stopped _ _ (by simp)]
      simp [ticksBeforeStop]
    | false =>
      rw [List.foldl_cons, spinnerStep_default (n % 4) (Nat.mod_lt _ (by norm_num))]
      have h1 : (n % 4 + 1) % 4 = (n + 1) % 4 := by omega
      have h2 : (List.range n).map spinnerLine ++ [spinnerLine (n % 4)] =
          (List.range (n + 1)).map spinnerLine := by
        rw [spinnerLine_mod, List.range_succ, List.map_append]
        rfl
      rw [h1, h2, ih (n + 1)]
      have h3 : ticksBeforeStop (false :: rest) = ticksBeforeStop rest + 1 := by
        simp [ticksBeforeStop]
      have h4 : n + 1 + ticksBeforeStop rest = n + (ticksBeforeStop rest + 1) := by omega
      rw [h3, h4]
      simp

/-- The state in which `renderSpinner` is after a schedule. -/
theorem renderSpinner_eq (schedule : List Bool) :
    renderSpinner schedule =
      { i := ((ticksBeforeStop schedule % 4 : Nat) : Int),
        printed := (List.range (ticksBeforeStop schedule)).map spinnerLine,
        status := if true ∈ schedule then .returned else .running } := by
  have h := spinner_run_from schedule 0
  simpa [renderSpinner, spinnerInit] using h

theorem ticksBeforeStop_append_true (before rest : List Bool) :
    ticksBeforeStop (before ++ true :: rest) = ticksBeforeStop before := by
  induction before with
  | nil => simp [ticksBeforeStop]
  | cons r before ih =>
    cases r with
    | true => simp [ticksBeforeStop]
    | false =>
      simp only [ticksBeforeStop, List.cons_append, Bool.not_false, List.takeWhile_cons_of_pos,
        List.length_cons] at ih ⊢
      rw [ih]

theorem spinnerLine_ne_banner (k : Nat) : spinnerLine k ≠ bannerLine := by
  have h1 : (spinnerLine k).head? = some 13 := rfl
  have h2 : bannerLine.head? = some 10 := rfl
  intro h
  rw [h, h2] at h1
  exact absurd h1 (by decide)

theorem spinnerLine_period (k : Nat) : spinnerLine (k + 4) = spinnerLine k := by
  simp [spinnerLine]

theorem spinnerLine_distinct (k d : Nat) (h0 : 0 < d) (h4 : d < 4) :
    spinnerLine (k + d) ≠ spinnerLine k := by
  have hk : k % 4 < 4 := Nat.mod_lt _ (by norm_num)
  have h1 : spinnerLine (k + d) = spinnerLine ((k % 4 + d) % 4) := by
    rw [spinnerLine_mod, ← spinnerLine_mod (k + d), ← spinnerLine_mod (k % 4 + d)]
    congr 1
    omega
  rw [h1, ← spinnerLine_mod k]
  generalize k % 4 = m at hk
  interval_cases m <;> interval_cases d <;> decide

/-! ## The claims -/

/-- C1: for every non-empty path whose file is readable with byte content `b`, `readFile`
returns `b` without error, and the prompt that `sendToAIReview` builds from it, which is the
prompt of the posted request, is `promptHead ++ b ++ promptTail`: the two constants do not
depend on `b`, `promptHead` ends with the dashed delimiter line and the indentation of the
directive, and the bytes of the file stand unchanged between it and `promptTail`. -/
theorem C1_prompt_embeds_file_bytes (w : World) (path absolutePath b : GoString)
    (hne : path ≠ []) (habs : w.abs path = .ok absolutePath)
    (hread : w.osReadFile absolutePath = .ok b) :
    (readFile w path).err = none ∧ (readFile w path).content = b ∧
    buildPrompt (readFile w path).content = promptHead ++ b ++ promptTail ∧
    (requestData (readFile w path).content).Prompt = promptHead ++ b ++ promptTail ∧
    utf8 "  -------------------------------\n  " <:+ promptHead ∧
    promptTail = [10, 32, 32] ∧
    Event.httpPost url (utf8 "application/json")
        (renderObject w.jsonQuote
          (OllamaRequest.fields
            { Model := model, Prompt := promptHead ++ b ++ promptTail, Stream := false }))
      ∈ (rootCmdRun w path).events := by
  have hr := readFile_ok w path absolutePath b hne habs hread
  refine ⟨by rw [hr], by rw [hr], by rw [hr, buildPrompt_eq], ?_, promptHead_delimiter,
    by decide, ?_⟩
  · rw [hr]; simp [requestData, buildPrompt_eq]
  · obtain ⟨rest, hrest⟩ := sendToAIReview_events_sent w b
    simp only [rootCmdRun, hr, hrest, sentEvents, requestBody, requestData, buildPrompt_eq]
    simp

/-- Witness of C1: the file `main.go` of the sample world, given by a relative path. -/
theorem C1_prompt_embeds_file_bytes_witness :
    (readFile worldOk (utf8 "main.go")).content = utf8 "package main\n" ∧
    buildPrompt (readFile worldOk (utf8 "main.go")).content =
      promptHead ++ utf8 "package main\n" ++ promptTail :=
  have h := C1_prompt_embeds_file_bytes worldOk (utf8 "main.go") (utf8 "/home/dev/main.go")
    (utf8 "package main\n") (by decide) rfl rfl
  ⟨h.2.1, h.2.2.1⟩

/-- C2: in every world, `readFile` of the empty path returns the empty content and the error
`no file provided`, and performs no effect: it neither resolves a path nor reads a file. -/
theorem C2_empty_path_is_missing_input (w : World) :
    readFile w (utf8 "") =
      { events := [], content := utf8 "", err := some (utf8 "no file provided") } := by
  exact readFile_empty w

/-- C3: for every path on which `readFile` fails, the root command performs the effects of
`readFile` and then prints the error and a newline to standard output, and nothing else: it
starts no spinner, posts no request and sends no stop signal, so `sendToAIReview` is not
called; it returns, and the process exits with status 0.  For the empty path the run is the
single print of `no file provided`. -/
theorem C3_read_failure_is_printed_only (w : World) (path e : GoString)
    (h : (readFile w path).err = some e) :
    (rootCmdRun w path).events = (readFile w path).events ++ [.stdout (e ++ [10])] ∧
    (∀ ev ∈ (readFile w path).events, ∃ p, ev = .absPath p ∨ ev = .osReadFile p) ∧
    Event.goSpinner ∉ (rootCmdRun w path).events ∧
    Event.chanSend ∉ (rootCmdRun w path).events ∧
    (∀ u c b, Event.httpPost u c b ∉ (rootCmdRun w path).events) ∧
    (rootCmdRun w path).outcome = .returned ∧
    exitStatus (main w (.run path)).outcome = 0 ∧
    (rootCmdRun w (utf8 "")).events = [.stdout (utf8 "no file provided\n")] := by
  have hev : ∀ ev ∈ (readFile w path).events, ∃ p, ev = .absPath p ∨ ev = .osReadFile p := by
    rcases readFile_err_cases w path e h with ⟨_, _, h3⟩ | ⟨_, c, _, _, h3⟩ | ⟨_, a, c, _, _, _, h3⟩
    · simp [h3]
    · simp [h3]
    · rw [h3]
      intro ev hmem
      simp only [List.mem_cons, List.mem_singleton, List.not_mem_nil, or_false] at hmem
      rcases hmem with rfl | rfl
      · exact ⟨_, Or.inl rfl⟩
      · exact ⟨_, Or.inr rfl⟩
  have hrun : rootCmdRun w path =
      { events := (readFile w path).events ++ [.stdout (e ++ [10])], outcome := .returned } := by
    simp [rootCmdRun, h, println]
  have hnot : ∀ ev, (∀ p, ev ≠ .absPath p) → (∀ p, ev ≠ .osReadFile p) →
      ev ≠ .stdout (e ++ [10]) → ev ∉ (rootCmdRun w path).events := by
    intro ev h1 h2 h3 hmem
    rw [hrun] at hmem
    simp only [List.mem_append, List.mem_singleton] at hmem
    rcases hmem with hmem | hmem
    · obtain ⟨p, hp | hp⟩ := hev ev hmem
      · exact h1 p hp
      · exact h2 p hp
    · exact h3 hmem
  refine ⟨by rw [hrun], hev, ?_, ?_, ?_, by rw [hrun], by simp [main, hrun, exitStatus], ?_⟩
  · exact hnot _ (by simp) (by simp) (by simp)
  · exact hnot _ (by simp) (by simp) (by simp)
  · intro u c b
    exact hnot _ (by simp) (by simp) (by simp)
  · have h2 := readFile_empty w
    have h3 : utf8 "no file provided\n" = utf8 "no file provided" ++ [10] := by decide
    simp [rootCmdRun, h2, println, h3]

/-- Witness of C3: the path `/no/such/file` in the sample world, where no such file exists. -/
theorem C3_read_failure_is_printed_only_witness :
    (readFile worldOk (utf8 "/no/such/file")).err =
      some (utf8 "error reading file /no/such/file: open /no/such/file: no such file or directory") ∧
    (rootCmdRun worldOk (utf8 "/no/such/file")).events =
      (readFile worldOk (utf8 "/no/such/file")).events ++
        [.stdout (utf8 "error reading file /no/such/file: open /no/such/file: no such file or directory"
          ++ [10])] ∧
    exitStatus (main worldOk (.run (utf8 "/no/such/file"))).outcome = 0 :=
  have h := C3_read_failure_is_printed_only worldOk (utf8 "/no/such/file")
    (utf8 "error reading file /no/such/file: open /no/such/file: no such file or directory")
    (by decide)
  ⟨by decide, h.1, h.2.2.2.2.2.2.1⟩

/-- Counterexample to C4 as stated: with the working directory removed, the relative path
`x.go` is not empty and `readFile` fails on it while resolving it, and the error message
does not contain the path. -/
theorem C4_counterexample :
    utf8 "x.go" ≠ [] ∧
    worldNoCwd.abs (utf8 "x.go") = .error (utf8 "getwd: no such file or directory") ∧
    (readFile worldNoCwd (utf8 "x.go")).err =
      some (utf8 "error resolving path: getwd: no such file or directory") ∧
    ¬ (utf8 "x.go" <:+: utf8 "error resolving path: getwd: no such file or directory") :=
  ⟨by decide, rfl, by decide, by decide⟩

/-- C4, amended: for every non-empty path on which `readFile` fails, either reading the
resolved file failed, and then the message is `error reading file `, the path as supplied,
`: ` and the cause, so that it contains both the path as supplied and the cause; or
resolving the path failed, and then the message is `error resolving path: ` and the cause,
so that it contains the cause. -/
theorem C4_failure_message (w : World) (path e : GoString) (hne : path ≠ [])
    (h : (readFile w path).err = some e) :
    (∃ a cause, w.abs path = .ok a ∧ w.osReadFile a = .error cause ∧
      e = utf8 "error reading file " ++ path ++ utf8 ": " ++ cause ∧
      path <:+: e ∧ cause <:+: e) ∨
    (∃ cause, w.abs path = .error cause ∧
      e = utf8 "error resolving path: " ++ cause ∧ cause <:+: e) := by
  rcases readFile_err_cases w path e h with ⟨h1, _⟩ | ⟨_, c, h1, h2, _⟩ | ⟨_, a, c, h1, h2, h3, _⟩
  · exact absurd h1 hne
  · right
    exact ⟨c, h1, h2, ⟨utf8 "error resolving path: ", [], by rw [h2, List.append_nil]⟩⟩
  · left
    refine ⟨a, c, h1, h2, h3, ⟨utf8 "error reading file ", utf8 ": " ++ c, ?_⟩,
      ⟨utf8 "error reading file " ++ path ++ utf8 ": ", [], ?_⟩⟩
    · rw [h3]; simp only [List.append_assoc]
    · rw [h3, List.append_nil]

/-- Witness of C4: the path `/no/such/file` in the sample world. -/
theorem C4_failure_message_witness :
    utf8 "/no/such/file" <:+:
      utf8 "error reading file /no/such/file: open /no/such/file: no such file or directory" := by
  have h := C4_failure_message worldOk (utf8 "/no/such/file")
    (utf8 "error reading file /no/such/file: open /no/such/file: no such file or directory")
    (by decide) (by decide)
  rcases h with ⟨_, _, _, _, _, h4, _⟩ | ⟨c, h1, _⟩
  · exact h4
  · have h0 : worldOk.abs (utf8 "/no/such/file") = .ok (utf8 "/no/such/file") := rfl
    rw [h0] at h1
    cases h1

/-- C5: for every file content, the request that `sendToAIReview` builds has model `llama3`,
the rendered template as prompt and streaming off; its JSON object has the three members
`model`, `prompt`, `stream`, in this order, and no other; `json.Marshal` succeeds on it, and
the resulting text is posted exactly once, to `http://localhost:11434/api/generate`, with
content type `application/json`. -/
theorem C5_request_on_the_wire (w : World) (content : GoString) :
    requestData content =
      { Model := utf8 "llama3", Prompt := sprintf reviewTemplate [content], Stream := false } ∧
    (requestData content).fields =
      [(utf8 "model", .str (utf8 "llama3")),
       (utf8 "prompt", .str (sprintf reviewTemplate [content])),
       (utf8 "stream", .bool false)] ∧
    jsonMarshal w (requestData content) =
      .ok (utf8 "\x7b\"model\":" ++ w.jsonQuote (utf8 "llama3") ++ utf8 ",\"prompt\":" ++
        w.jsonQuote (sprintf reviewTemplate [content]) ++ utf8 ",\"stream\":false\x7d") ∧
    (sendToAIReview w content).events.filter Event.isHttpPost =
      [.httpPost (utf8 "http://localhost:11434/api/generate") (utf8 "application/json")
        (utf8 "\x7b\"model\":" ++ w.jsonQuote (utf8 "llama3") ++ utf8 ",\"prompt\":" ++
          w.jsonQuote (sprintf reviewTemplate [content]) ++ utf8 ",\"stream\":false\x7d")] := by
  have hb := requestBody_eq w content
  unfold buildPrompt at hb
  refine ⟨rfl, rfl, by rw [jsonMarshal_eq, hb], ?_⟩
  rw [← hb]
  rcases send_cases w content with ⟨e, h⟩ | ⟨resp, e, h1, h2⟩ | ⟨resp, body, e, h1, h2, h3⟩ |
    ⟨resp, body, r, h1, h2, h3⟩
  · rw [send_post_error w content e h]
    simp [sentEvents, List.filter, Event.isHttpPost, url]
  · rw [send_read_error w content e resp h1 h2]
    simp [sentEvents, List.filter, Event.isHttpPost, url]
  · rw [send_parse_error w content body e resp h1 h2 h3]
    simp [sentEvents, List.filter, Event.isHttpPost, url]
  · rw [send_ok w content body resp r h1 h2 h3]
    simp [sentEvents, List.filter, Event.isHttpPost, url]

/-- C6: whenever the response body parses into a response, whatever its `done` flag and its
text `r`, the run of `sendToAIReview` ends, after the stop signal and the reading of the
body, with the print of the success banner followed by the print of `r` and a line break; it
returns; and all it writes to standard output is the line announcing the request, the
banner line, `r` and the line break. -/
theorem C6_banner_then_response (w : World) (content body : GoString) (resp : HttpResponse)
    (r : OllamaResponse) (hpost : postResult w content = .ok resp)
    (hbody : resp.body = .ok body) (hparse : w.jsonUnmarshal body = .ok r) :
    (sendToAIReview w content).events =
      sentEvents w content ++ [.readAll, .stdout bannerLine, .stdout (r.Response ++ [10])] ∧
    (sendToAIReview w content).outcome = .returned ∧
    stdoutText (sendToAIReview w content).events =
      sendingLine ++ (bannerLine ++ (r.Response ++ [10])) ∧
    bannerLine = utf8 "\n--- ✅ Code Review Received ---\n" := by
  rw [send_ok w content body resp r hpost hbody hparse]
  refine ⟨rfl, rfl, ?_, by decide⟩
  simp [sentEvents, stdoutText]

/-- Witness of C6: the server of the sample world answers with the body of the example,
and what follows the banner is `looks good` and a line break. -/
theorem C6_banner_then_response_witness :
    worldOk.jsonUnmarshal looksGoodBody = .ok { Response := utf8 "looks good", Done := true } ∧
    (sendToAIReview worldOk (utf8 "package main\n")).events =
      sentEvents worldOk (utf8 "package main\n") ++
        [.readAll, .stdout bannerLine, .stdout (utf8 "looks good" ++ [10])] ∧
    stdoutText (sendToAIReview worldOk (utf8 "package main\n")).events =
      sendingLine ++ (bannerLine ++ (utf8 "looks good" ++ [10])) :=
  have h := C6_banner_then_response worldOk (utf8 "package main\n") looksGoodBody
    { body := .ok looksGoodBody } { Response := utf8 "looks good", Done := true } rfl rfl rfl
  ⟨rfl, h.1, h.2.2.1⟩

/-- C7: in a run of `sendToAIReview`, if the request fails, or the response body cannot be
read, or the body cannot be parsed, the run ends with a logged message and the exit of the
process with status 1, and the banner is not printed: all that was written to standard
output is the line announcing the request, which does not contain the banner.  Conversely
the banner is printed only in a run in which the request, the reading of the body and its
parsing all succeeded.  The progress indicator never prints the banner either. -/
theorem C7_failures_are_fatal (w : World) (content : GoString) :
    (((∃ e, postResult w content = .error e) ∨
      (∃ resp e, postResult w content = .ok resp ∧ resp.body = .error e) ∨
      (∃ resp body e, postResult w content = .ok resp ∧ resp.body = .ok body ∧
        w.jsonUnmarshal body = .error e)) →
      (sendToAIReview w content).outcome = .exit 1 ∧
      (∃ msg, (sendToAIReview w content).events.getLast? = some (.log msg)) ∧
      stdoutText (sendToAIReview w content).events = sendingLine ∧
      Event.stdout bannerLine ∉ (sendToAIReview w content).events) ∧
    (Event.stdout bannerLine ∈ (sendToAIReview w content).events →
      ∃ resp body r, postResult w content = .ok resp ∧ resp.body = .ok body ∧
        w.jsonUnmarshal body = .ok r) ∧
    ¬ (bannerLine <:+: sendingLine) ∧
    (∀ schedule, bannerLine ∉ (renderSpinner schedule).printed) := by
  have hne : bannerLine ≠ sendingLine := by decide
  have hspin : ∀ schedule, bannerLine ∉ (renderSpinner schedule).printed := by
    intro schedule hmem
    rw [renderSpinner_eq] at hmem
    simp only [List.mem_map] at hmem
    obtain ⟨k, _, hk⟩ := hmem
    exact spinnerLine_ne_banner k hk
  have hfail : ((∃ e, postResult w content = .error e) ∨
      (∃ resp e, postResult w content = .ok resp ∧ resp.body = .error e) ∨
      (∃ resp body e, postResult w content = .ok resp ∧ resp.body = .ok body ∧
        w.jsonUnmarshal body = .error e)) →
      (sendToAIReview w content).outcome = .exit 1 ∧
      (∃ msg, (sendToAIReview w content).events.getLast? = some (.log msg)) ∧
      stdoutText (sendToAIReview w content).events = sendingLine ∧
      Event.stdout bannerLine ∉ (sendToAIReview w content).events := by
    rintro (⟨e, h⟩ | ⟨resp, e, h1, h2⟩ | ⟨resp, body, e, h1, h2, h3⟩)
    · rw [send_post_error w content e h]
      exact ⟨rfl, ⟨utf8 "error making request to Ollama: " ++ e, by simp [sentEvents]⟩, by simp [sentEvents, stdoutText],
        by simp [sentEvents, hne]⟩
    · rw [send_read_error w content e resp h1 h2]
      exact ⟨rfl, ⟨utf8 "error reading response from Ollama: " ++ e, by simp [sentEvents]⟩, by simp [sentEvents, stdoutText],
        by simp [sentEvents, hne]⟩
    · rw [send_parse_error w content body e resp h1 h2 h3]
      exact ⟨rfl, ⟨utf8 "error unmarshalling response from Ollama: " ++ e, by simp [sentEvents]⟩, by simp [sentEvents, stdoutText],
        by simp [sentEvents, hne]⟩
  refine ⟨hfail, ?_, by decide, hspin⟩
  intro hmem
  rcases send_cases w content with h | h | h | h
  · exact absurd hmem (hfail (Or.inl h)).2.2.2
  · exact absurd hmem (hfail (Or.inr (Or.inl h))).2.2.2
  · exact absurd hmem (hfail (Or.inr (Or.inr h))).2.2.2
  · exact h

/-- Witness of C7: a server that answers with text that is not JSON. -/
theorem C7_failures_are_fatal_witness :
    (sendToAIReview worldGarbled (utf8 "package main\n")).outcome = .exit 1 ∧
    Event.stdout bannerLine ∉ (sendToAIReview worldGarbled (utf8 "package main\n")).events :=
  have h := (C7_failures_are_fatal worldGarbled (utf8 "package main\n")).1
    (Or.inr (Or.inr ⟨{ body := .ok (utf8 "<html>") }, utf8 "<html>",
      utf8 "invalid character '<' looking for beginning of value", rfl, rfl, rfl⟩))
  ⟨h.1, h.2.2.2⟩

/-- C8: every run of `sendToAIReview` starts with the line announcing the request, the start
of the progress indicator, the call of `http.Post` and the stop signal, in this order and
with nothing between them; whatever follows contains no second stop signal, no second start
and no second call, and every logged failure stands after the stop signal.  So the signal
is sent exactly once, whether the call failed or succeeded; when it failed, the run is these
four effects and then the logged message and the exit. -/
theorem C8_spinner_started_and_stopped_once (w : World) (content : GoString) :
    (∃ rest, (sendToAIReview w content).events =
        [.stdout sendingLine, .goSpinner,
         .httpPost url (utf8 "application/json") (requestBody w content), .chanSend] ++ rest ∧
      Event.chanSend ∉ rest ∧ Event.goSpinner ∉ rest ∧
      (∀ u c b, Event.httpPost u c b ∉ rest) ∧ rest ≠ []) ∧
    (sendToAIReview w content).events.count .chanSend = 1 ∧
    (sendToAIReview w content).events.count .goSpinner = 1 ∧
    (∀ e, postResult w content = .error e →
      (sendToAIReview w content).events =
        [.stdout sendingLine, .goSpinner,
         .httpPost url (utf8 "application/json") (requestBody w content), .chanSend,
         .log (utf8 "error making request to Ollama: " ++ e)] ∧
      (sendToAIReview w content).outcome = .exit 1) := by
  have hlast : ∀ e, postResult w content = .error e →
      (sendToAIReview w content).events =
        [.stdout sendingLine, .goSpinner,
         .httpPost url (utf8 "application/json") (requestBody w content), .chanSend,
         .log (utf8 "error making request to Ollama: " ++ e)] ∧
      (sendToAIReview w content).outcome = .exit 1 := by
    intro e h
    rw [send_post_error w content e h]
    exact ⟨rfl, rfl⟩
  rcases send_cases w content with ⟨e, h⟩ | ⟨resp, e, h1, h2⟩ | ⟨resp, body, e, h1, h2, h3⟩ |
    ⟨resp, body, r, h1, h2, h3⟩
  · refine ⟨⟨_, (hlast e h).1, ?_⟩, ?_, ?_, hlast⟩
    · simp
    · rw [(hlast e h).1]; simp [List.count_cons]
    · rw [(hlast e h).1]; simp [List.count_cons]
  · have hr := send_read_error w content e resp h1 h2
    refine ⟨⟨_, by rw [hr]; rfl, ?_⟩, ?_, ?_, hlast⟩
    · simp
    · rw [hr]; simp [sentEvents, List.count_cons]
    · rw [hr]; simp [sentEvents, List.count_cons]
  · have hr := send_parse_error w content body e resp h1 h2 h3
    refine ⟨⟨_, by rw [hr]; rfl, ?_⟩, ?_, ?_, hlast⟩
    · simp
    · rw [hr]; simp [sentEvents, List.count_cons]
    · rw [hr]; simp [sentEvents, List.count_cons]
  · have hr := send_ok w content body resp r h1 h2 h3
    refine ⟨⟨_, by rw [hr]; rfl, ?_⟩, ?_, ?_, hlast⟩
    · simp
    · rw [hr]; simp [sentEvents, List.count_cons]
    · rw [hr]; simp [sentEvents, List.count_cons]

/-- Witness of C8: no server is listening, and the stop signal is still sent before the
failure is logged. -/
theorem C8_spinner_started_and_stopped_once_witness :
    (sendToAIReview worldDown (utf8 "package main\n")).events =
      [.stdout sendingLine, .goSpinner,
       .httpPost url (utf8 "application/json") (requestBody worldDown (utf8 "package main\n")),
       .chanSend,
       .log (utf8 "error making request to Ollama: " ++
         utf8 "dial tcp 127.0.0.1:11434: connect: connection refused")] ∧
    (sendToAIReview worldDown (utf8 "package main\n")).outcome = .exit 1 :=
  (C8_spinner_started_and_stopped_once worldDown (utf8 "package main\n")).2.2.2
    (utf8 "dial tcp 127.0.0.1:11434: connect: connection refused") rfl

/-- C9: the iteration of `renderSpinner` that receives the stop signal prints nothing and
leaves the loop; an iteration that prints is one that did not receive the signal; and once
an iteration has received the signal, nothing is printed any more, whatever the schedule
goes on with: the function has returned. -/
theorem C9_no_output_after_stop (before rest : List Bool) :
    (∀ s, (spinnerStep true s).printed = s.printed ∧ (spinnerStep true s).status ≠ .running) ∧
    (∀ s received, (spinnerStep received s).printed ≠ s.printed → received = false) ∧
    (renderSpinner (before ++ [true])).printed = (renderSpinner before).printed ∧
    (renderSpinner (before ++ true :: rest)).printed = (renderSpinner before).printed ∧
    (renderSpinner (before ++ true :: rest)).status = .returned := by
  have hstep : ∀ s, (spinnerStep true s).printed = s.printed ∧
      (spinnerStep true s).status ≠ .running := by
    intro s
    by_cases hs : s.status = .running
    · have h : spinnerStep true s = { s with status := .returned } := by
        unfold spinnerStep
        rw [hs]
        rfl
      rw [h]
      exact ⟨rfl, by simp⟩
    · rw [spinnerStep_stopped true s hs]
      exact ⟨rfl, hs⟩
  refine ⟨hstep, ?_, ?_, ?_, ?_⟩
  · intro s received h
    cases received with
    | false => rfl
    | true => exact absurd (hstep s).1 h
  · rw [renderSpinner_eq, renderSpinner_eq, ticksBeforeStop_append_true]
  · rw [renderSpinner_eq, renderSpinner_eq, ticksBeforeStop_append_true]
  · rw [renderSpinner_eq]
    simp

/-- Witness of C9: two prints, then the signal; a further iteration would print nothing.
The first iteration printed, and it had not received the signal. -/
theorem C9_no_output_after_stop_witness :
    (renderSpinner [false, false, true, false]).printed = (renderSpinner [false, false]).printed ∧
    (spinnerStep false spinnerInit).printed ≠ spinnerInit.printed ∧ false = false :=
  have h := C9_no_output_after_stop [false, false] [false]
  ⟨h.2.2.2.1, by decide, h.2.1 spinnerInit false (by decide)⟩

/-- C10: in `renderSpinner` the index starts at 0 and, after any number of iterations, is
between 0 and 3, so that the lookup of the glyph is within bounds and the goroutine never
panics; print number `k`, counting from 0, is the carriage return and the label, glyph
number `k mod 4` of the sequence `|`, `/`, `-`, `\`, and a blank; there are as many prints as
iterations before the stop signal; and the texts repeat with period 4 and no smaller
period. -/
theorem C10_spinner_index_and_glyphs (schedule : List Bool) :
    spinnerInit.i = 0 ∧
    (renderSpinner schedule).status ≠ .panicked ∧
    0 ≤ (renderSpinner schedule).i ∧ (renderSpinner schedule).i < 4 ∧
    index spinner (renderSpinner schedule).i ≠ none ∧
    (renderSpinner schedule).printed.length = ticksBeforeStop schedule ∧
    (∀ k, k < (renderSpinner schedule).printed.length →
      (renderSpinner schedule).printed[k]? =
        some (utf8 "\rAnalisando com o Ollama... " ++
          String.utf8EncodeChar (['|', '/', '-', '\\'].getD (k % 4) '|') ++ utf8 " ")) ∧
    (∀ k, k + 4 < (renderSpinner schedule).printed.length →
      (renderSpinner schedule).printed[k + 4]? = (renderSpinner schedule).printed[k]?) ∧
    (∀ k d, 0 < d → d < 4 → k + d < (renderSpinner schedule).printed.length →
      (renderSpinner schedule).printed[k + d]? ≠ (renderSpinner schedule).printed[k]?) := by
  have hget : ∀ k, k < ticksBeforeStop schedule →
      ((List.range (ticksBeforeStop schedule)).map spinnerLine)[k]? = some (spinnerLine k) := by
    intro k hk
    simp [List.getElem?_map, List.getElem?_range hk]
  have hm : ticksBeforeStop schedule % 4 < 4 := Nat.mod_lt _ (by norm_num)
  rw [renderSpinner_eq]
  refine ⟨rfl, ?_, ?_, ?_, ?_, by simp, ?_, ?_, ?_⟩
  · show (if true ∈ schedule then SpinnerStatus.returned else SpinnerStatus.running) ≠ _
    split <;> simp
  · exact Int.ofNat_nonneg _
  · show ((ticksBeforeStop schedule % 4 : Nat) : Int) < 4
    exact_mod_cast hm
  · show index spinner ((ticksBeforeStop schedule % 4 : Nat) : Int) ≠ none
    generalize ticksBeforeStop schedule % 4 = m at hm
    interval_cases m <;> decide
  · intro k hk
    simp only [List.length_map, List.length_range] at hk
    show ((List.range (ticksBeforeStop schedule)).map spinnerLine)[k]? = _
    rw [hget k hk]
    rfl
  · intro k hk
    simp only [List.length_map, List.length_range] at hk
    show ((List.range (ticksBeforeStop schedule)).map spinnerLine)[k + 4]? =
      ((List.range (ticksBeforeStop schedule)).map spinnerLine)[k]?
    rw [hget _ hk, hget k (by omega), spinnerLine_period]
  · intro k d h0 h4 hk
    simp only [List.length_map, List.length_range] at hk
    show ((List.range (ticksBeforeStop schedule)).map spinnerLine)[k + d]? ≠
      ((List.range (ticksBeforeStop schedule)).map spinnerLine)[k]?
    rw [hget _ hk, hget k (by omega)]
    intro h
    exact spinnerLine_distinct k d h0 h4 (Option.some.inj h)

/-- Witness of C10: six prints; print number 5 shows glyph number 1, the slash. -/
theorem C10_spinner_index_and_glyphs_witness :
    (renderSpinner [false, false, false, false, false, false, true]).printed[5]? =
      some (utf8 "\rAnalisando com o Ollama... / ") ∧
    (renderSpinner [false, false, false, false, false, false, true]).printed[5]? =
      (renderSpinner [false, false, false, false, false, false, true]).printed[1]? ∧
    (renderSpinner [false, false, false, false, false, false, true]).printed[3]? ≠
      (renderSpinner [false, false, false, false, false, false, true]).printed[1]? :=
  have h := C10_spinner_index_and_glyphs [false, false, false, false, false, false, true]
  ⟨(h.2.2.2.2.2.2.1 5 (by decide)).trans (by decide), h.2.2.2.2.2.2.2.1 1 (by decide),
    h.2.2.2.2.2.2.2.2 1 2 (by decide) (by decide) (by decide)⟩

end Aira
